import Mathlib

/-!
Verification of the BullMQ queue management CLI and the NestJS producer and
worker wiring of this repository, against its natural-language specification.

The repository source under `src/` contains the CLI (`src/cli/queue.cli.ts`),
the Nest modules (`app.module.ts`, `invoice.module.ts`, `mail.module.ts`,
`notification.module.ts`), the producers (`MailService.createMailJob`,
`NotificationService.createNotificationJob`) and the workers
(`MailQueueProcessor.process`, `NotificationQueueProcessor.process`).
The queue engine itself (the `bullmq` library: `Queue.drain`, `Queue.clean`,
job-state bookkeeping, retention) is an external dependency whose source is
not part of the repository; the primitives the CLI calls into are modelled
from the specification's words (each such definition carries a doc comment
starting with `Modelled from the spec:`).  Everything else is translated
directly from the TypeScript source.
-/

namespace QueuePoc

/-- The five job states of the queue engine (spec section 4.2 and the CLI's
`showStatus`, which queries exactly these five counts). -/
inductive JobState where
  | waiting
  | delayed
  | active
  | completed
  | failed
deriving DecidableEq, Repr

/-- A job as stored in the queue, reduced to the fields the CLI operations
inspect: an identifier, the state it currently sits in, and the timestamp the
age filter of `clean` compares against. -/
structure StoredJob where
  id : Nat
  state : JobState
  timestamp : Nat
deriving DecidableEq, Repr

/-- Number of jobs of a queue in a given state; `showStatus` in
`src/cli/queue.cli.ts` reports exactly these counts per state. -/
def countInState (q : List StoredJob) (s : JobState) : Nat :=
  q.countP (fun j => j.state == s)

/-- The record printed by `showStatus` (`src/cli/queue.cli.ts`, lines 33-55):
one count per state. -/
structure QueueStatus where
  waitingJobs : Nat
  activeJobs : Nat
  completedJobs : Nat
  failedJobs : Nat
  delayedJobs : Nat
deriving DecidableEq, Repr

/-- `showStatus` from `src/cli/queue.cli.ts`: the five per-state counts of a
queue, obtained from the store. -/
def showStatus (q : List StoredJob) : QueueStatus :=
  ⟨countInState q JobState.waiting,
   countInState q JobState.active,
   countInState q JobState.completed,
   countInState q JobState.failed,
   countInState q JobState.delayed⟩

/-- Modelled from the spec: `Queue.drain` of the bullmq engine is not part of
the repository; spec section 4.6 says a drain "removes every job in every
state for that queue unconditionally" and the glossary defines drain as
"unconditional removal of all jobs in a queue regardless of state". -/
def drainStore (_q : List StoredJob) : List StoredJob := []

/-- A job is old enough to be cleaned when its age at time `now` reaches the
grace period `graceMs` (the `olderThanMs` filter of spec section 4.6). -/
def oldEnough (now graceMs : Nat) (j : StoredJob) : Bool :=
  j.timestamp + graceMs ≤ now

/-- Modelled from the spec: the per-state `Queue.clean` primitive of the
bullmq engine is not part of the repository.  Spec section 4.6 gives it age
and state filters and a removed count; the CLI's own option help text
(`src/cli/queue.cli.ts`) documents the cleanable states as "completed,
failed, wait, active, delayed".  It removes the jobs of the requested state
that pass the age filter and returns the remaining queue together with the
number of jobs removed. -/
def cleanStore (now graceMs : Nat) (s : JobState) (q : List StoredJob) :
    List StoredJob × Nat :=
  (q.filter (fun j => !(j.state == s && oldEnough now graceMs j)),
   q.countP (fun j => j.state == s && oldEnough now graceMs j))

/-- `ageInMs` as computed by the `clean` command of `src/cli/queue.cli.ts`:
`parseInt(options.age) * 60 * 60 * 1000`. -/
def ageInMs (ageHours : Nat) : Nat := ageHours * 60 * 60 * 1000

/-- The `clean` command of `src/cli/queue.cli.ts` (lines 122-158): with a
`--status` option it cleans that one state; without it, it loops over the
array `['completed', 'failed', 'wait', 'active', 'delayed']`, cleans each
state in turn and sums the removed counts.  The loop is unrolled here
exactly as the source iterates its literal array. -/
def cliClean (now ageHours : Nat) (statusOpt : Option JobState)
    (q : List StoredJob) : List StoredJob × Nat :=
  let ms := ageInMs ageHours
  match statusOpt with
  | some s => cleanStore now ms s q
  | none =>
    let r1 := cleanStore now ms JobState.completed q
    let r2 := cleanStore now ms JobState.failed r1.1
    let r3 := cleanStore now ms JobState.waiting r2.1
    let r4 := cleanStore now ms JobState.active r3.1
    let r5 := cleanStore now ms JobState.delayed r4.1
    (r5.1, r1.2 + (r2.2 + (r3.2 + (r4.2 + r5.2))))

/-- ASCII lowercasing of a string, character by character, standing in for
the `toLowerCase()` call on the confirmation answer in the `drain`
command (the inputs compared against are the single letters y and n). -/
def lowercase (s : String) : String := ⟨s.data.map Char.toLower⟩

/-- Outcome of the `drain` command: the queue afterwards, the process exit
code, and the message printed. -/
structure DrainResult where
  queueAfter : List StoredJob
  exitCode : Nat
  message : String
deriving DecidableEq, Repr

/-- The `drain` command of `src/cli/queue.cli.ts` (lines 160-196): without
`--force` it prompts for confirmation and cancels (printing "Operation
cancelled", exiting 0, touching nothing) unless the lowercased answer is
exactly "y"; otherwise it drains the queue and exits 0. -/
def cliDrain (force : Bool) (answer : String) (q : List StoredJob) :
    DrainResult :=
  if !force && lowercase answer != "y" then
    ⟨q, 0, "Operation cancelled"⟩
  else
    ⟨drainStore q, 0, "Queue has been drained"⟩

/-- The queue-name extraction of `getQueueNames` in `src/cli/queue.cli.ts`:
a storage key matches the pattern when it starts with "bull:" followed by at
least one character other than a colon and then a colon; the captured queue
name is that run of non-colon characters (the regex is written with a
caret, the literal `bull:`, a bracketed negated colon with a plus, and a
closing colon). -/
def extractQueueName (key : String) : Option String :=
  if key.startsWith "bull:" then
    let rest := key.drop 5
    let name := rest.takeWhile (fun c => c ≠ ':')
    if 0 < name.length ∧ name.length < rest.length then some name else none
  else none

/-- `getQueueNames` from `src/cli/queue.cli.ts` (lines 18-31): extract a
queue name from every matching key, collect them into a set (duplicates
collapse) and return them sorted.  Set insertion followed by a sort is
modelled as `dedup` followed by a sort; on a duplicate-free list every
correct comparison sort returns the same list, so insertion sort stands in
for the JavaScript sort. -/
def getQueueNames (keys : List String) : List String :=
  ((keys.filterMap extractQueueName).dedup).insertionSort (· ≤ ·)

/-- A dispatched job as the worker processors see it: identifier, logical
name and an opaque payload. -/
structure Job where
  jobId : Nat
  name : String
  data : String
deriving DecidableEq, Repr

/-- The value returned by both processors of this repository. -/
structure ProcessResult where
  result : String
deriving DecidableEq, Repr

/-- `MailQueueProcessor.process` from `src/mail/mail-queue-processor.ts`:
logs the job and returns the fixed success record; no path raises. -/
def MailQueueProcessor.process (_job : Job) : Except String ProcessResult :=
  Except.ok ⟨"Job processed successfully"⟩

/-- `NotificationQueueProcessor.process` from
`src/notification/notification-queue-processor.ts`: logs the job and returns
the fixed success record; no path raises. -/
def NotificationQueueProcessor.process (_job : Job) :
    Except String ProcessResult :=
  Except.ok ⟨"Job processed successfully"⟩

/-- Modelled from the spec: the worker dispatcher's interpretation of a
handler outcome (spec sections 4.2 and 4.4) — an explicit success value
moves the job to `completed`; a raised error drives the retry, backoff and
`failed` branch.  The dispatcher itself lives in the bullmq engine, outside
the repository. -/
inductive DispatchOutcome where
  | complete (r : ProcessResult)
  | handlerError (e : String)
deriving DecidableEq, Repr

/-- Modelled from the spec: how the dispatcher classifies what a handler
returned (spec section 4.4, step 4). -/
def interpretHandler (r : Except String ProcessResult) : DispatchOutcome :=
  match r with
  | Except.ok v => DispatchOutcome.complete v
  | Except.error e => DispatchOutcome.handlerError e

/-- A retention policy as the repository's own integration guide documents
the `removeOnComplete` and `removeOnFail` options: a boolean (`true` removes
the job immediately, `false` keeps everything), a bare count (keep the last
`n` jobs), or an age with an optional count (spec section 4.5: a job is
removed once either threshold is exceeded). -/
inductive KeepPolicy where
  | bool (b : Bool)
  | count (n : Nat)
  | ageCount (maxAgeSec : Option Nat) (maxCount : Option Nat)
deriving DecidableEq, Repr

/-- Modelled from the spec: the retention sweeper's survival test (spec
section 4.5).  `ageSec` is the time since `finishedAt`; `rank` counts the
job's position most-recent-first starting at 1.  A job survives a sweep
unless its age exceeds the configured max age or its rank exceeds the
configured max count; the boolean policy `true` removes the job immediately
and `false` never removes it. -/
def survivesSweep (p : KeepPolicy) (ageSec rank : Nat) : Bool :=
  match p with
  | KeepPolicy.bool true => false
  | KeepPolicy.bool false => true
  | KeepPolicy.count n => rank ≤ n
  | KeepPolicy.ageCount maxAgeSec maxCount =>
    (match maxAgeSec with
     | some a => decide (ageSec ≤ a)
     | none => true)
    && (match maxCount with
        | some c => decide (rank ≤ c)
        | none => true)

/-- The `defaultJobOptions` of `BullModule.forRoot` in `src/app.module.ts`
(lines 16-20): `removeOnComplete: true`, `removeOnFail: true`,
`delay: 5000`. -/
structure DefaultJobOptions where
  removeOnComplete : KeepPolicy
  removeOnFail : KeepPolicy
  delay : Option Nat
deriving DecidableEq, Repr

/-- The application-wide defaults configured in `src/app.module.ts`. -/
def appDefaultJobOptions : DefaultJobOptions :=
  ⟨KeepPolicy.bool true, KeepPolicy.bool true, some 5000⟩

/-- The delay that ends up on a job added with a per-call delay option:
a per-call option overrides the queue default, and with neither the delay
is zero (bullmq option merging as both `src/app.module.ts` and the
integration guide use it). -/
def effectiveDelay (defaults : DefaultJobOptions) (callerDelay : Option Nat) :
    Nat :=
  match callerDelay with
  | some d => d
  | none => defaults.delay.getD 0

/-- Modelled from the spec: the initial state of a created job (spec section
4.2): `delayed` if a positive delay is given, else `waiting`. -/
def initialState (delay : Nat) : JobState :=
  if 0 < delay then JobState.delayed else JobState.waiting

/-- A producer-side job entry: the logical job name, the opaque payload and
the per-call delay option it was added with. -/
structure AddedJob where
  name : String
  data : String
  delayOpt : Option Nat
deriving DecidableEq, Repr

/-- The producer-visible state of the application's queues: the jobs added
to the mail queue and to the notification queue. -/
structure SystemState where
  mailQueue : List AddedJob
  notificationQueue : List AddedJob
deriving DecidableEq, Repr

/-- `MailService.createMailJob` from the mail service shown in
`src/app.module.ts` (lines 41-46): adds a job named "notification:1" with
the given data and an explicit `delay: 5000` to the mail queue. -/
def createMailJob (data : String) (s : SystemState) : SystemState :=
  { s with mailQueue := s.mailQueue ++ [⟨"notification:1", data, some 5000⟩] }

/-- `NotificationService.createNotificationJob` from
`src/notification/notification.service.ts` (lines 12-17): the entire body
is commented out, so the call changes nothing. -/
def createNotificationJob (_data : String) (s : SystemState) : SystemState :=
  s

/-- `AppController.triggerNotificationJob` from the controller shown in
`src/invoice/invoice.module.ts` (lines 30-46): calls
`createNotificationJob`, then `createMailJob`, then returns the success
string. -/
def triggerNotificationJob (s : SystemState) : SystemState × String :=
  let s1 := createNotificationJob "paymentDone" s
  let s2 := createMailJob "mailData" s1
  (s2, "Job triggered successfully")

/-- The CLI commands of `src/cli/queue.cli.ts`, plus the catch-all for
unknown commands registered on the program. -/
inductive CliCommand where
  | list (details : Bool)
  | status (queueName : String)
  | clean (queueName : String) (statusOpt : Option JobState) (ageHours : Nat)
  | drain (queueName : String) (force : Bool)
  | unknown (args : String)
deriving DecidableEq, Repr

/-- Result of one CLI invocation: the process exit code and the queue
afterwards. -/
structure CliResult where
  exitCode : Nat
  queueAfter : List StoredJob
deriving DecidableEq, Repr

/-- The command dispatch of `src/cli/queue.cli.ts`: every known command
wraps its body in try/catch, exiting 0 at the end of the try block and 1
from the catch block after printing the error; the handler registered for
unknown commands prints an error and exits 1.  `redis` is the outcome of the
awaited store operations (an exception from any of them lands in the catch
block); `answer` is the confirmation input read by `drain` when prompted. -/
def runCommand (cmd : CliCommand) (redis : Except String Unit) (now : Nat)
    (answer : String) (q : List StoredJob) : CliResult :=
  match cmd with
  | CliCommand.unknown _ => ⟨1, q⟩
  | CliCommand.list _ =>
    match redis with
    | Except.ok _ => ⟨0, q⟩
    | Except.error _ => ⟨1, q⟩
  | CliCommand.status _ =>
    match redis with
    | Except.ok _ => ⟨0, q⟩
    | Except.error _ => ⟨1, q⟩
  | CliCommand.clean _ sOpt age =>
    match redis with
    | Except.ok _ => ⟨0, (cliClean now age sOpt q).1⟩
    | Except.error _ => ⟨1, q⟩
  | CliCommand.drain _ force =>
    match redis with
    | Except.ok _ =>
      let r := cliDrain force answer q
      ⟨r.exitCode, r.queueAfter⟩
    | Except.error _ => ⟨1, q⟩

/-! Helper lemmas about `cleanStore` chains, shared by the clean theorems. -/

/-- Counting jobs of one state is unaffected by first filtering away the old
jobs of a different state. -/
theorem countP_state_filter_other (pold : StoredJob → Bool) (s s2 : JobState)
    (hne : s ≠ s2) (q : List StoredJob) :
    (q.filter (fun j => !(j.state == s2 && pold j))).countP
        (fun j => j.state == s && pold j)
      = q.countP (fun j => j.state == s && pold j) := by
  rw [List.countP_filter]
  apply List.countP_congr
  intro j _
  by_cases hj : j.state = s2
  · simp [hj, Ne.symm hne]
  · simp [hj]

/-- The per-state counts of the five states sum to the overall count: every
job sits in exactly one of the five states. -/
theorem countP_states_sum (pold : StoredJob → Bool) (q : List StoredJob) :
    q.countP (fun j => j.state == JobState.completed && pold j)
      + (q.countP (fun j => j.state == JobState.failed && pold j)
      + (q.countP (fun j => j.state == JobState.waiting && pold j)
      + (q.countP (fun j => j.state == JobState.active && pold j)
      + q.countP (fun j => j.state == JobState.delayed && pold j))))
      = q.countP pold := by
  induction q with
  | nil => rfl
  | cons j t ih =>
    simp only [List.countP_cons]
    cases hs : j.state <;> cases hp : pold j <;> simp [hs, hp] <;> omega

/-- The queue left by the no-filter `clean` command: exactly the jobs whose
age is below the threshold survive, whatever their state. -/
theorem cliClean_none_fst (now h : Nat) (q : List StoredJob) :
    (cliClean now h none q).1 =
      q.filter (fun j => !oldEnough now (ageInMs h) j) := by
  simp only [cliClean, cleanStore, List.filter_filter]
  apply List.filter_congr
  intro j _
  cases hs : j.state <;> cases hp : oldEnough now (ageInMs h) j <;>
    simp [hs, hp]

/-- The count reported by the no-filter `clean` command: the number of jobs
whose age meets the threshold, whatever their state. -/
theorem cliClean_none_snd (now h : Nat) (q : List StoredJob) :
    (cliClean now h none q).2 =
      q.countP (fun j => oldEnough now (ageInMs h) j) := by
  simp only [cliClean, cleanStore]
  rw [countP_state_filter_other _ _ _ (by simp) q,
    countP_state_filter_other _ _ _ (by simp),
    countP_state_filter_other _ _ _ (by simp) q,
    countP_state_filter_other _ _ _ (by simp),
    countP_state_filter_other _ _ _ (by simp),
    countP_state_filter_other _ _ _ (by simp) q,
    countP_state_filter_other _ _ _ (by simp),
    countP_state_filter_other _ _ _ (by simp),
    countP_state_filter_other _ _ _ (by simp),
    countP_state_filter_other _ _ _ (by simp) q]
  exact countP_states_sum _ q

/-- Filtering twice with the same predicate filters once. -/
theorem filter_twice {α : Type} (p : α → Bool) (l : List α) :
    (l.filter p).filter p = l.filter p := by
  rw [List.filter_filter]
  apply List.filter_congr
  intro a _
  rw [Bool.and_self]

/-- After the jobs satisfying `p` are filtered away, none remain to count. -/
theorem countP_after_filter_not {α : Type} (p : α → Bool) (l : List α) :
    (l.filter (fun a => !p a)).countP p = 0 := by
  rw [List.countP_filter]
  exact List.countP_eq_zero.mpr (by intro a _; simp)

/-- One `cleanStore` pass is idempotent: a second pass with the same state
and age removes nothing. -/
theorem cleanStore_idem (now ms : Nat) (s : JobState) (q : List StoredJob) :
    cleanStore now ms s (cleanStore now ms s q).1 =
      ((cleanStore now ms s q).1, 0) := by
  simp only [cleanStore, List.filter_filter, List.countP_filter]
  refine Prod.ext ?_ ?_
  · apply List.filter_congr
    intro a _
    rw [Bool.and_self]
  · exact List.countP_eq_zero.mpr (by intro a _; simp)

/-- The `drain` command always exits 0, in both the cancel branch and the
drain branch. -/
theorem cliDrain_exitCode (force : Bool) (answer : String)
    (q : List StoredJob) : (cliDrain force answer q).exitCode = 0 := by
  unfold cliDrain
  split <;> rfl

/-! The claims. -/

/-- C1: running the drain operation with force=true on a queue containing
jobs in all five states removes every job in every state, so that a
subsequent status query reports a count of zero for each of the five
states.  (The engine's drain primitive is modelled from the spec, which
makes drain remove every job regardless of state.) -/
theorem drain_force_removes_all_states (answer : String) (q : List StoredJob)
    (hw : 0 < countInState q JobState.waiting)
    (hd : 0 < countInState q JobState.delayed)
    (ha : 0 < countInState q JobState.active)
    (hc : 0 < countInState q JobState.completed)
    (hf : 0 < countInState q JobState.failed) :
    (cliDrain true answer q).queueAfter = [] ∧
      showStatus (cliDrain true answer q).queueAfter = ⟨0, 0, 0, 0, 0⟩ :=
  ⟨rfl, rfl⟩

/-- Witness for C1: a concrete queue with one job in each of the five
states, drained with force set. -/
theorem drain_force_removes_all_states_witness :
    0 < countInState [⟨1, JobState.waiting, 0⟩, ⟨2, JobState.delayed, 0⟩,
        ⟨3, JobState.active, 0⟩, ⟨4, JobState.completed, 0⟩,
        ⟨5, JobState.failed, 0⟩] JobState.waiting ∧
      (cliDrain true "x" [⟨1, JobState.waiting, 0⟩, ⟨2, JobState.delayed, 0⟩,
          ⟨3, JobState.active, 0⟩, ⟨4, JobState.completed, 0⟩,
          ⟨5, JobState.failed, 0⟩]).queueAfter = [] ∧
      showStatus (cliDrain true "x" [⟨1, JobState.waiting, 0⟩,
          ⟨2, JobState.delayed, 0⟩, ⟨3, JobState.active, 0⟩,
          ⟨4, JobState.completed, 0⟩,
          ⟨5, JobState.failed, 0⟩]).queueAfter = ⟨0, 0, 0, 0, 0⟩ := by
  refine ⟨by decide, ?_, ?_⟩
  · exact (drain_force_removes_all_states "x" _ (by decide) (by decide)
      (by decide) (by decide) (by decide)).1
  · exact (drain_force_removes_all_states "x" _ (by decide) (by decide)
      (by decide) (by decide) (by decide)).2

/-- C2 counterexample: the claim says clean removes only terminal
(completed or failed) jobs and never touches waiting, active or delayed
jobs; but on a queue holding a single old waiting job the clean command
with no state filter removes it and reports one job removed. -/
theorem clean_removes_waiting_counterexample :
    (cliClean 90000000 24 none [⟨1, JobState.waiting, 0⟩]).1 = [] ∧
      (cliClean 90000000 24 none [⟨1, JobState.waiting, 0⟩]).2 = 1 := by
  decide

/-- C2 amended: the clean command removes exactly the jobs in the requested
state — any of the five, not only terminal ones — whose age meets the
threshold, and with no state filter it removes the old jobs of every state;
in both forms it returns the count of jobs removed and leaves every other
job in place. -/
theorem clean_state_age_filters (now h : Nat) (s : JobState)
    (q : List StoredJob) :
    cliClean now h (some s) q =
      (q.filter (fun j => !(j.state == s && oldEnough now (ageInMs h) j)),
       q.countP (fun j => j.state == s && oldEnough now (ageInMs h) j)) ∧
    cliClean now h none q =
      (q.filter (fun j => !oldEnough now (ageInMs h) j),
       q.countP (fun j => oldEnough now (ageInMs h) j)) :=
  ⟨rfl, Prod.ext (cliClean_none_fst now h q) (cliClean_none_snd now h q)⟩

/-- C3: the claim says no unconditional hard-coded delay is applied to jobs
enqueued without a caller-specified delay; but the app module's
`defaultJobOptions` carry `delay: 5000`, so a job added with no per-call
delay gets an effective delay of 5000 ms and starts in the delayed state
instead of waiting. -/
theorem default_delay_forces_delayed_state :
    effectiveDelay appDefaultJobOptions none = 5000 ∧
      initialState (effectiveDelay appDefaultJobOptions none) =
        JobState.delayed ∧
      initialState 0 = JobState.waiting := by
  decide

/-- C4 counterexample: the claim says a completed job within the retention
count limit whose age is within the max age survives and is not removed
upon completion; but the app configures `removeOnComplete: true` (and
`removeOnFail: true`), under which even a job of age zero and rank one is
removed immediately. -/
theorem retention_immediate_removal_counterexample :
    survivesSweep appDefaultJobOptions.removeOnComplete 0 1 = false ∧
      survivesSweep appDefaultJobOptions.removeOnFail 0 1 = false := by
  decide

/-- C4 amended: under an age-and-count retention policy a completed job
within both limits survives the sweep, but the repository's configured
policy (`removeOnComplete: true`) removes every completed job immediately,
whatever its age or rank. -/
theorem retention_age_count_policy (maxAgeSec maxCount ageSec rank : Nat)
    (hage : ageSec ≤ maxAgeSec) (hrank : rank ≤ maxCount) :
    survivesSweep (KeepPolicy.ageCount (some maxAgeSec) (some maxCount))
        ageSec rank = true ∧
      ∀ g r : Nat,
        survivesSweep appDefaultJobOptions.removeOnComplete g r = false := by
  constructor
  · simp [survivesSweep, hage, hrank]
  · intro g r
    rfl

/-- Witness for C4's amended statement at concrete ages and ranks. -/
theorem retention_age_count_policy_witness :
    3 ≤ 10 ∧ 2 ≤ 5 ∧
      (survivesSweep (KeepPolicy.ageCount (some 10) (some 5)) 3 2 = true ∧
        ∀ g r : Nat,
          survivesSweep appDefaultJobOptions.removeOnComplete g r = false) :=
  ⟨by decide, by decide,
    retention_age_count_policy 10 5 3 2 (by decide) (by decide)⟩

/-- C5: the drain command without the force flag cancels on every
confirmation answer whose lowercasing is not "y": it prints the
cancellation message, exits with code 0 and removes no jobs. -/
theorem drain_without_force_cancels (answer : String) (q : List StoredJob)
    (h : lowercase answer ≠ "y") :
    cliDrain false answer q = ⟨q, 0, "Operation cancelled"⟩ := by
  simp [cliDrain, h]

/-- Witness for C5: answering "No" leaves the queue untouched and exits
with code 0. -/
theorem drain_without_force_cancels_witness :
    lowercase "No" ≠ "y" ∧
      cliDrain false "No" [⟨7, JobState.waiting, 3⟩] =
        ⟨[⟨7, JobState.waiting, 3⟩], 0, "Operation cancelled"⟩ :=
  ⟨by decide, drain_without_force_cancels "No" _ (by decide)⟩

/-- C6: the clean command is idempotent — run twice with the same age and
state filters, the second run removes nothing and reports a count of
zero. -/
theorem clean_idempotent (now h : Nat) (opt : Option JobState)
    (q : List StoredJob) :
    cliClean now h opt (cliClean now h opt q).1 =
      ((cliClean now h opt q).1, 0) := by
  cases opt with
  | some s => exact cleanStore_idem now (ageInMs h) s q
  | none =>
    refine Prod.ext ?_ ?_
    · rw [cliClean_none_fst, cliClean_none_fst, filter_twice]
    · rw [cliClean_none_snd, cliClean_none_fst]
      exact countP_after_filter_not _ q

/-- C7: every CLI invocation exits with code 1 when the command is unknown
or when an awaited queue operation raises, and with code 0 when a known
command completes without error (the drain command's cancel branch
included). -/
theorem cli_exit_codes (cmd : CliCommand) (redis : Except String Unit)
    (now : Nat) (answer : String) (q : List StoredJob) :
    (∀ args, cmd = CliCommand.unknown args →
        (runCommand cmd redis now answer q).exitCode = 1) ∧
      (∀ e, redis = Except.error e →
        (runCommand cmd redis now answer q).exitCode = 1) ∧
      ((∀ args, cmd ≠ CliCommand.unknown args) → redis = Except.ok () →
        (runCommand cmd redis now answer q).exitCode = 0) := by
  refine ⟨?_, ?_, ?_⟩
  · intro args hcmd
    subst hcmd
    rfl
  · intro e hred
    subst hred
    cases cmd <;> rfl
  · intro hk hok
    subst hok
    cases cmd with
    | list d => rfl
    | status n => rfl
    | clean n sOpt age => rfl
    | drain n force => exact cliDrain_exitCode force answer q
    | unknown a => exact absurd rfl (hk a)

/-- Witness for C7: an unknown command exits 1 and a status command whose
store operations succeed exits 0. -/
theorem cli_exit_codes_witness :
    (runCommand (CliCommand.unknown "nope") (Except.ok ()) 0 "" []).exitCode
        = 1 ∧
      (runCommand (CliCommand.status "mail-queue") (Except.ok ()) 0 ""
          []).exitCode = 0 :=
  ⟨(cli_exit_codes (CliCommand.unknown "nope") (Except.ok ()) 0 "" []).1
      "nope" rfl,
   (cli_exit_codes (CliCommand.status "mail-queue") (Except.ok ()) 0 ""
      []).2.2 (fun args hcon => CliCommand.noConfusion hcon) rfl⟩

/-- C8: the notification producer path is a no-op — `createNotificationJob`
changes nothing, so the trigger endpoint enqueues a job only on the mail
queue and still reports success. -/
theorem notification_producer_noop (data : String) (s : SystemState) :
    createNotificationJob data s = s ∧
      (triggerNotificationJob s).1.notificationQueue =
        s.notificationQueue ∧
      (triggerNotificationJob s).1.mailQueue =
        s.mailQueue ++ [⟨"notification:1", "mailData", some 5000⟩] ∧
      (triggerNotificationJob s).2 = "Job triggered successfully" :=
  ⟨rfl, rfl, rfl, rfl⟩

/-- C9: both registered processors return the fixed success record on every
job and never raise, so the dispatcher's handler-error branch is
unreachable for jobs on these queues. -/
theorem processors_always_succeed (j : Job) :
    MailQueueProcessor.process j =
        Except.ok ⟨"Job processed successfully"⟩ ∧
      NotificationQueueProcessor.process j =
        Except.ok ⟨"Job processed successfully"⟩ ∧
      interpretHandler (MailQueueProcessor.process j) =
        DispatchOutcome.complete ⟨"Job processed successfully"⟩ ∧
      interpretHandler (NotificationQueueProcessor.process j) =
        DispatchOutcome.complete ⟨"Job processed successfully"⟩ ∧
      ∀ e, interpretHandler (MailQueueProcessor.process j) ≠
          DispatchOutcome.handlerError e ∧
        interpretHandler (NotificationQueueProcessor.process j) ≠
          DispatchOutcome.handlerError e := by
  refine ⟨rfl, rfl, rfl, rfl, ?_⟩
  intro e
  exact ⟨fun hcon => DispatchOutcome.noConfusion hcon,
    fun hcon => DispatchOutcome.noConfusion hcon⟩

/-- C10: the queue-name enumeration of the list command is duplicate-free
and ascending in the lexicographic string order, whatever storage keys
exist. -/
theorem queue_names_nodup_sorted (keys : List String) :
    (getQueueNames keys).Nodup ∧
      List.Sorted (· ≤ ·) (getQueueNames keys) :=
  ⟨((List.perm_insertionSort _ _).nodup_iff).mpr (List.nodup_dedup _),
   List.sorted_insertionSort _ _⟩

end QueuePoc
